import Mathlib

/-!
Shallow embedding of the TuringDB engine core
(`src/TuringFeeds/src/engine.rs`, with the older sketch in
`src/src/engine.rs` kept in mind where a claim cites it).

Modelling conventions:
* `TAI64N` instants are modelled as `Nat`; `TAI64N::now()` becomes an
  explicit `now : Nat` argument threaded by the caller.
* `HashMap<String, V>` is modelled as an association list
  `List (String × V)` with first-occurrence lookup / replace / remove,
  matching the observable behaviour of a hash map whose keys are distinct.
* `RwLock` disappears: each method becomes a pure function on the guarded
  value, mirroring the body the lock protects.
* File-system effects (`DirBuilder`, `OpenOptions`, `write_all`,
  `sync_all`) are modelled by an explicit `FS` state: whether the root
  directory `TuringFeedsRepo` exists, and the byte content of
  `TuringFeedsRepo/REPO.log` (`none` when the file does not exist).
  Writing with `OpenOptions::new().create(true).write(true)` (no
  truncate, no append) starts at offset 0 over the existing content, so
  the resulting content is the written data followed by whatever tail of
  the old content it did not cover.
* The `ron` serializer is external library code; it is modelled as a
  concrete injective encoder into a token stream together with a decoder
  that inverts it and rejects trailing input (as `ron::de::from_str`
  rejects trailing non-whitespace).
-/

/-- Result codes from the external `custom_codes::DbOps` enum
(only the variants the engine uses). -/
inductive DbOps where
  | AlreadyExists
  | Inserted
  | Modified
  | KeyNotFound
  | Deleted
  | Empty
deriving DecidableEq, Repr

/-- Result codes from the external `custom_codes::FileOps` enum
(only the variants the engine uses). -/
inductive FileOps where
  | CreateTrue
  | WriteTrue
  | WriteDenied
  | AlreadyExists
  | Interrupted
deriving DecidableEq, Repr

/-- `std::io::ErrorKind` values the engine can observe from directory and
file operations. `other` stands for every remaining kind. -/
inductive ErrorKind where
  | notFound
  | permissionDenied
  | alreadyExists
  | interrupted
  | other
deriving DecidableEq, Repr

/-- Modelled from the spec: the crate-root error enum `TuringFeedsError`
(its definition lives in the crate's `lib.rs`, which is not under `src/`;
`engine.rs` constructs `TuringFeedsError::IoError(error)` and uses `?` on
both `io` and `ron` fallible calls, so the enum has at least an I/O
variant and a deserialization variant, matching the spec's two error
tiers). An `io::Error` is observable through its `ErrorKind`, which the
`ioError` variant therefore carries. -/
inductive TuringFeedsError where
  | ioError (kind : ErrorKind)
  | ronDeError
deriving DecidableEq, Repr

/-- First-occurrence association-list lookup, the model of
`HashMap::get` / `Entry` occupancy testing. -/
def lookupA {α : Type} : List (String × α) → String → Option α
  | [], _ => none
  | (k, v) :: rest, key => if k = key then some v else lookupA rest key

/-- Association-list insert modelling `HashMap::insert`: replace the
first entry with the given key, or append when the key is absent. -/
def insertA {α : Type} (key : String) (value : α) : List (String × α) → List (String × α)
  | [] => [(key, value)]
  | (k, v) :: rest => if k = key then (key, value) :: rest else (k, v) :: insertA key value rest

/-- Association-list removal modelling `HashMap::remove`: drop the first
entry with the given key, if any. -/
def removeA {α : Type} (key : String) : List (String × α) → List (String × α)
  | [] => []
  | (k, v) :: rest => if k = key then rest else (k, v) :: removeA key rest

/-- Number of entries stored under a key. -/
def keyCount {α : Type} (key : String) : List (String × α) → Nat
  | [] => 0
  | (k, _) :: rest => (if k = key then 1 else 0) + keyCount key rest

/-- `TFDocument` (engine.rs lines 224-234): generated identifier plus
creation and modification instants. -/
structure TFDocument where
  identifier : String
  create_time : Nat
  modified_time : Nat
deriving DecidableEq, Repr

/-- `TFDocument::new` (engine.rs 237-248): the random token produced by
`RandIdentifier::build()` enters as the argument `rid`; both instants are
set to the single `TAI64N::now()` sample `now`. -/
def TFDocument.new (rid : String) (now : Nat) : TFDocument :=
  { identifier := rid, create_time := now, modified_time := now }

/-- `TFDocument::id` (engine.rs 249-253): overwrite the identifier. -/
def TFDocument.id (self : TFDocument) (value : String) : TFDocument :=
  { self with identifier := value }

/-- `TFDocument::modified_time` (engine.rs 254-258): refresh the
modification instant to `now`, leaving everything else unchanged.
(Named `modified_timeB` because the field already takes the source
name.) -/
def TFDocument.modified_timeB (self : TFDocument) (now : Nat) : TFDocument :=
  { self with modified_time := now }

/-- `TuringFeedsDB` (engine.rs 140-153): identifier, last-modified
instant, and the lazily created document map. -/
structure TuringFeedsDB where
  identifier : String
  datetime : Nat
  document_list : Option (List (String × TFDocument))
deriving DecidableEq, Repr

/-- `TuringFeedsDB::new` (engine.rs 156-162). -/
def TuringFeedsDB.new (now : Nat) : TuringFeedsDB :=
  { identifier := "", datetime := now, document_list := none }

/-- `TuringFeedsDB::identifier` (engine.rs 163-167); named `identifierB`
because the field already takes the source name. -/
def TuringFeedsDB.identifierB (self : TuringFeedsDB) (key : String) : TuringFeedsDB :=
  { self with identifier := key }

/-- `TuringFeedsDB::add` (engine.rs 168-193): insert keyed by the
document's identifier into the document map (created now if it never
existed), overwriting any previous entry, and stamp `datetime` with
`now` in every branch. The source's `Some`/`None` match on the result
of `HashMap::insert` performs identical updates in both arms, so the
two arms collapse here. -/
def TuringFeedsDB.add (self : TuringFeedsDB) (now : Nat) (values : TFDocument) : TuringFeedsDB :=
  match self.document_list with
  | some existing_map =>
      { self with datetime := now,
                  document_list := some (insertA values.identifier values existing_map) }
  | none =>
      { self with datetime := now,
                  document_list := some [(values.identifier, values)] }

/-- `TuringFeedsDB::rm` (engine.rs 194-213): `Deleted` removes the entry
and stamps `datetime`; `KeyNotFound` leaves the value unchanged; `Empty`
reports that no document map was ever created. -/
def TuringFeedsDB.rm (self : TuringFeedsDB) (now : Nat) (key : String) : DbOps × TuringFeedsDB :=
  match self.document_list with
  | some existing_map =>
      match lookupA existing_map key with
      | some _ =>
          (DbOps.Deleted,
            { self with datetime := now, document_list := some (removeA key existing_map) })
      | none =>
          (DbOps.KeyNotFound, { self with document_list := some existing_map })
  | none => (DbOps.Empty, self)

/-- The guarded repository map inside `TuringFeeds` (engine.rs 25-35):
`RwLock<HashMap<UserDefinedName, TuringFeedsDB>>`. -/
abbrev RepoMap := List (String × TuringFeedsDB)

/-- `TuringFeeds::new` (engine.rs 39-43): `RwLock::default()` guards an
empty map. -/
def TuringFeeds.new : RepoMap := []

/-- `TuringFeeds::memdb_add` (engine.rs 107-117): insert only if the key
is vacant; an occupied entry yields `AlreadyExists` and no change. The
second component is the map after the call (the source returns
`Option<&Self>`, i.e. the mutated repository on success). -/
def TuringFeeds.memdb_add (dbs : RepoMap) (values : TuringFeedsDB) : DbOps × RepoMap :=
  match lookupA dbs values.identifier with
  | some _ => (DbOps.AlreadyExists, dbs)
  | none => (DbOps.Inserted, insertA values.identifier values dbs)

/-- `TuringFeeds::memdb_update` (engine.rs 119-128): replace only if the
key is occupied; a vacant entry yields `KeyNotFound` and no change. -/
def TuringFeeds.memdb_update (dbs : RepoMap) (values : TuringFeedsDB) : DbOps × RepoMap :=
  match lookupA dbs values.identifier with
  | none => (DbOps.KeyNotFound, dbs)
  | some _ => (DbOps.Modified, insertA values.identifier values dbs)

/-- `TuringFeeds::memdb_rm` (engine.rs 131-137): remove and return the
entry when present, else `KeyNotFound` with no value. -/
def TuringFeeds.memdb_rm (dbs : RepoMap) (key : String) :
    (DbOps × Option TuringFeedsDB) × RepoMap :=
  match lookupA dbs key with
  | some v => ((DbOps.Deleted, some v), removeA key dbs)
  | none => ((DbOps.KeyNotFound, none), dbs)

/-! ### File system and serialization model -/

/-- One atom of snapshot-file content. The snapshot is UTF-8 text; for
the claims at hand only the content's identity and length matter, so it
is modelled as a stream of string/number tokens rather than raw bytes. -/
inductive Atom where
  | nat (n : Nat)
  | str (s : String)
deriving DecidableEq, Repr

/-- Snapshot-file content. -/
abbrev Bytes := List Atom

/-- State of the on-disk world the engine touches: the root directory
`TuringFeedsRepo` and the snapshot file `TuringFeedsRepo/REPO.log`
(`none` when the file does not exist). -/
structure FS where
  dirExists : Bool
  repoFile : Option Bytes
deriving DecidableEq, Repr

/-- Encoding of one document, `ron`-style record rendering modelled as a
token stream. -/
def encDoc (d : TFDocument) : Bytes :=
  [Atom.str d.identifier, Atom.nat d.create_time, Atom.nat d.modified_time]

/-- Encoding of one `(key, document)` map entry. -/
def encDocEntry (e : String × TFDocument) : Bytes :=
  Atom.str e.1 :: encDoc e.2

/-- Length-prefixed encoding of a document map. -/
def encDocMap (m : List (String × TFDocument)) : Bytes :=
  Atom.nat m.length :: (m.map encDocEntry).flatten

/-- Encoding of the optional document map, with a presence tag. -/
def encOptDocMap : Option (List (String × TFDocument)) → Bytes
  | none => [Atom.nat 0]
  | some m => Atom.nat 1 :: encDocMap m

/-- Encoding of one database record. -/
def encDB (db : TuringFeedsDB) : Bytes :=
  Atom.str db.identifier :: Atom.nat db.datetime :: encOptDocMap db.document_list

/-- Encoding of one `(key, database)` map entry. -/
def encDBEntry (e : String × TuringFeedsDB) : Bytes :=
  Atom.str e.1 :: encDB e.2

/-- Model of `ron::ser::to_string` on the repository map: length-prefixed
concatenation of the entry encodings. -/
def ronSer (m : RepoMap) : Bytes :=
  Atom.nat m.length :: (m.map encDBEntry).flatten

/-- Consume one number token. -/
def decNat : Bytes → Option (Nat × Bytes)
  | Atom.nat n :: rest => some (n, rest)
  | _ => none

/-- Consume one string token. -/
def decStr : Bytes → Option (String × Bytes)
  | Atom.str s :: rest => some (s, rest)
  | _ => none

/-- Decode one document. -/
def decDoc (bs : Bytes) : Option (TFDocument × Bytes) := do
  let (i, r1) ← decStr bs
  let (c, r2) ← decNat r1
  let (m, r3) ← decNat r2
  pure (⟨i, c, m⟩, r3)

/-- Decode one `(key, document)` entry. -/
def decDocEntry (bs : Bytes) : Option ((String × TFDocument) × Bytes) := do
  let (k, r1) ← decStr bs
  let (d, r2) ← decDoc r1
  pure ((k, d), r2)

/-- Decode exactly `n` document entries. -/
def decDocEntries : Nat → Bytes → Option (List (String × TFDocument) × Bytes)
  | 0, bs => some ([], bs)
  | n + 1, bs => do
    let (e, r1) ← decDocEntry bs
    let (es, r2) ← decDocEntries n r1
    pure (e :: es, r2)

/-- Decode the optional document map. -/
def decOptDocMap (bs : Bytes) : Option (Option (List (String × TFDocument)) × Bytes) := do
  let (tag, r1) ← decNat bs
  match tag with
  | 0 => pure (none, r1)
  | 1 => do
    let (len, r2) ← decNat r1
    let (m, r3) ← decDocEntries len r2
    pure (some m, r3)
  | _ => none

/-- Decode one database record. -/
def decDB (bs : Bytes) : Option (TuringFeedsDB × Bytes) := do
  let (i, r1) ← decStr bs
  let (t, r2) ← decNat r1
  let (dl, r3) ← decOptDocMap r2
  pure (⟨i, t, dl⟩, r3)

/-- Decode one `(key, database)` entry. -/
def decDBEntry (bs : Bytes) : Option ((String × TuringFeedsDB) × Bytes) := do
  let (k, r1) ← decStr bs
  let (d, r2) ← decDB r1
  pure ((k, d), r2)

/-- Decode exactly `n` database entries. -/
def decDBEntries : Nat → Bytes → Option (RepoMap × Bytes)
  | 0, bs => some ([], bs)
  | n + 1, bs => do
    let (e, r1) ← decDBEntry bs
    let (es, r2) ← decDBEntries n r1
    pure (e :: es, r2)

/-- Model of `ron::de::from_str` on the repository map: decode the whole
content and reject trailing input, as `ron` rejects text after the value. -/
def ronDe (bs : Bytes) : Option RepoMap :=
  match decNat bs with
  | none => none
  | some (len, r1) =>
    match decDBEntries len r1 with
    | some (m, []) => some m
    | _ => none

/-! ### Repository file operations -/

/-- `TuringFeeds::create` (engine.rs 72-80): `DirBuilder` with
`recursive(false)` on `TuringFeedsRepo`. The OS reports `AlreadyExists`
exactly when the directory is already present; `fault` injects any other
environmental failure (permission denied, interruption, other) the OS
may produce on an absent directory. Every error is returned as
`TuringFeedsError::IoError(error)`, the kind still observable inside. -/
def TuringFeeds.create (fs : FS) (fault : Option ErrorKind) :
    Except TuringFeedsError FileOps × FS :=
  if fs.dirExists then
    (Except.error (TuringFeedsError.ioError ErrorKind.alreadyExists), fs)
  else
    match fault with
    | some k => (Except.error (TuringFeedsError.ioError k), fs)
    | none => (Except.ok FileOps.CreateTrue, { fs with dirExists := true })

/-- `TuringFeeds::create` of the older sketch (`src/src/engine.rs`
72-93): identical directory creation, but the error kinds are folded
into distinct `FileOps` codes inside `Ok`, with only the remaining kinds
left as `Err(IoError)`. -/
def TuringFeeds.createOld (fs : FS) (fault : Option ErrorKind) :
    Except TuringFeedsError FileOps × FS :=
  if fs.dirExists then (Except.ok FileOps.AlreadyExists, fs)
  else
    match fault with
    | some ErrorKind.permissionDenied => (Except.ok FileOps.WriteDenied, fs)
    | some ErrorKind.alreadyExists => (Except.ok FileOps.AlreadyExists, fs)
    | some ErrorKind.interrupted => (Except.ok FileOps.Interrupted, fs)
    | some k => (Except.error (TuringFeedsError.ioError k), fs)
    | none => (Except.ok FileOps.CreateTrue, { fs with dirExists := true })

/-- `TuringFeeds::commit` (engine.rs 82-105): open
`TuringFeedsRepo/REPO.log` with `create(true).write(true)` — creating
the file when absent but NOT truncating an existing one — serialize the
whole map, `write_all` from offset 0, `sync_all`, and report
`WriteTrue`. The resulting file content is the serialized data followed
by any tail of the previous content the write did not cover. Opening
fails with `NotFound` when the root directory does not exist. -/
def TuringFeeds.commit (dbs : RepoMap) (fs : FS) :
    Except TuringFeedsError (FileOps × FS) :=
  if fs.dirExists then
    let old := fs.repoFile.getD []
    let data := ronSer dbs
    Except.ok (FileOps.WriteTrue,
      { fs with repoFile := some (data ++ old.drop data.length) })
  else
    Except.error (TuringFeedsError.ioError ErrorKind.notFound)

/-- `TuringFeeds::init` (engine.rs 48-70), the fallible part: open the
snapshot file with `create(false)` (failing with `NotFound` when it does
not exist), read the whole content, and deserialize it into a full
repository map. -/
def TuringFeeds.init (fs : FS) : Except TuringFeedsError RepoMap :=
  match fs.repoFile with
  | none => Except.error (TuringFeedsError.ioError ErrorKind.notFound)
  | some contents =>
    match ronDe contents with
    | none => Except.error TuringFeedsError.ronDeError
    | some data => Except.ok data

/-- `TuringFeeds::init` including its effect on the guarded in-memory
map: the write lock is taken and the map wholesale-replaced only after
every fallible step has succeeded, so on any failure the map is the one
the repository already held. -/
def TuringFeeds.initRun (dbs : RepoMap) (fs : FS) :
    Except TuringFeedsError Unit × RepoMap :=
  match TuringFeeds.init fs with
  | Except.error e => (Except.error e, dbs)
  | Except.ok data => (Except.ok (), data)

/-- `commit` followed by `init` on the resulting file state — the
round-trip scenario of the spec. -/
def commitThenInit (dbs : RepoMap) (fs : FS) : Except TuringFeedsError RepoMap :=
  match TuringFeeds.commit dbs fs with
  | Except.error e => Except.error e
  | Except.ok (_, fs2) => TuringFeeds.init fs2

/-! ### Association-list lemmas -/

theorem lookupA_insertA_self {α : Type} (key : String) (v : α) (m : List (String × α)) :
    lookupA (insertA key v m) key = some v := by
  induction m with
  | nil => simp [insertA, lookupA]
  | cons e rest ih =>
    obtain ⟨k, w⟩ := e
    by_cases h : k = key <;> simp [insertA, lookupA, h, ih]

theorem lookupA_insertA_ne {α : Type} (key k' : String) (v : α) (m : List (String × α))
    (h : k' ≠ key) : lookupA (insertA key v m) k' = lookupA m k' := by
  induction m with
  | nil => simp [insertA, lookupA, Ne.symm h]
  | cons e rest ih =>
    obtain ⟨k, w⟩ := e
    by_cases hk : k = key
    · subst hk
      simp [insertA, lookupA, Ne.symm h]
    · simp [insertA, lookupA, hk, ih]

theorem lookupA_removeA_ne {α : Type} (key k' : String) (m : List (String × α))
    (h : k' ≠ key) : lookupA (removeA key m) k' = lookupA m k' := by
  induction m with
  | nil => simp [removeA]
  | cons e rest ih =>
    obtain ⟨k, w⟩ := e
    by_cases hk : k = key
    · subst hk
      simp [removeA, lookupA, Ne.symm h]
    · simp [removeA, lookupA, hk, ih]

theorem lookupA_of_keyCount_zero {α : Type} (key : String) (m : List (String × α))
    (h : keyCount key m = 0) : lookupA m key = none := by
  induction m with
  | nil => simp [lookupA]
  | cons e rest ih =>
    obtain ⟨k, w⟩ := e
    by_cases hk : k = key
    · simp [keyCount, hk] at h
    · simp [keyCount, hk] at h
      simp [lookupA, hk, ih h]

theorem lookupA_removeA_self {α : Type} (key : String) (m : List (String × α))
    (h : keyCount key m ≤ 1) : lookupA (removeA key m) key = none := by
  induction m with
  | nil => simp [removeA, lookupA]
  | cons e rest ih =>
    obtain ⟨k, w⟩ := e
    by_cases hk : k = key
    · subst hk
      simp [keyCount] at h
      simp [removeA]
      exact lookupA_of_keyCount_zero k rest (by omega)
    · simp [keyCount, hk] at h
      simp [removeA, lookupA, hk]
      exact ih h

theorem keyCount_insertA_self {α : Type} (key : String) (v : α) (m : List (String × α))
    (h : keyCount key m ≤ 1) : keyCount key (insertA key v m) = 1 := by
  induction m with
  | nil => simp [insertA, keyCount]
  | cons e rest ih =>
    obtain ⟨k, w⟩ := e
    by_cases hk : k = key
    · subst hk
      simp [keyCount] at h
      simp [insertA, keyCount]
      omega
    · simp [keyCount, hk] at h
      simp [insertA, keyCount, hk]
      exact ih h

/-! ### Serializer round-trip -/

theorem decDoc_enc (d : TFDocument) (r : Bytes) : decDoc (encDoc d ++ r) = some (d, r) := rfl

theorem decDocEntry_enc (e : String × TFDocument) (r : Bytes) :
    decDocEntry (encDocEntry e ++ r) = some (e, r) := rfl

theorem decDocEntries_enc (m : List (String × TFDocument)) (r : Bytes) :
    decDocEntries m.length ((m.map encDocEntry).flatten ++ r) = some (m, r) := by
  induction m with
  | nil => rfl
  | cons e rest ih =>
    simp only [List.map_cons, List.flatten_cons, List.length_cons, List.append_assoc]
    simp [decDocEntries, decDocEntry_enc, ih]

theorem decOptDocMap_enc (o : Option (List (String × TFDocument))) (r : Bytes) :
    decOptDocMap (encOptDocMap o ++ r) = some (o, r) := by
  cases o with
  | none => rfl
  | some m =>
    simp only [encOptDocMap, encDocMap, List.cons_append]
    simp [decOptDocMap, decNat, decDocEntries_enc]

theorem decDB_enc (db : TuringFeedsDB) (r : Bytes) : decDB (encDB db ++ r) = some (db, r) := by
  simp only [encDB, List.cons_append]
  simp [decDB, decStr, decNat, decOptDocMap_enc]

theorem decDBEntry_enc (e : String × TuringFeedsDB) (r : Bytes) :
    decDBEntry (encDBEntry e ++ r) = some (e, r) := by
  simp only [encDBEntry, List.cons_append]
  simp [decDBEntry, decStr, decDB_enc]

theorem decDBEntries_enc (m : RepoMap) (r : Bytes) :
    decDBEntries m.length ((m.map encDBEntry).flatten ++ r) = some (m, r) := by
  induction m with
  | nil => rfl
  | cons e rest ih =>
    simp only [List.map_cons, List.flatten_cons, List.length_cons, List.append_assoc]
    simp [decDBEntries, decDBEntry_enc, ih]

/-- The modelled `ron` decoder inverts the modelled `ron` encoder. -/
theorem ronDe_ronSer (m : RepoMap) : ronDe (ronSer m) = some m := by
  have h := decDBEntries_enc m []
  rw [List.append_nil] at h
  simp [ronDe, ronSer, decNat, h]

/-! ### Further structural lemmas -/

/-- Both branches of `TuringFeedsDB::add` normalize to one insert into
the current document map (an absent map behaving as the empty map). -/
theorem TuringFeedsDB.add_normal (self : TuringFeedsDB) (now : Nat) (values : TFDocument) :
    self.add now values =
      { self with datetime := now,
                  document_list :=
                    some (insertA values.identifier values (self.document_list.getD [])) } := by
  cases h : self.document_list with
  | none => simp [TuringFeedsDB.add, h, insertA]
  | some m => simp [TuringFeedsDB.add, h]

theorem TuringFeedsDB.eta_document_list (self : TuringFeedsDB)
    (m : List (String × TFDocument)) (h : self.document_list = some m) :
    { self with document_list := some m } = self := by
  cases self
  simp_all

/-- On a root directory that exists and a snapshot file that does not
yet exist, `commit` then `init` reproduces any committed map. -/
theorem commitThenInit_ok (dbs : RepoMap) (fs : FS)
    (hdir : fs.dirExists = true) (hfile : fs.repoFile = none) :
    commitThenInit dbs fs = Except.ok dbs := by
  simp [commitThenInit, TuringFeeds.commit, hdir, hfile, TuringFeeds.init, ronDe_ronSer]

/-! ### Claim theorems -/

/-- C4: `memdb_add(db)` inserts `db` keyed by its identifier only when
that key is absent, returning `Inserted`, and a lookup of the
previously-absent key then yields exactly the inserted database; when
the key is present it returns `AlreadyExists` and leaves the map
untouched, so after two `memdb_add` calls with the same identifier the
stored value is still the first one. -/
theorem memdb_add_spec (dbs : RepoMap) (db : TuringFeedsDB) :
    (lookupA dbs db.identifier = none →
      TuringFeeds.memdb_add dbs db = (DbOps.Inserted, insertA db.identifier db dbs) ∧
      lookupA (TuringFeeds.memdb_add dbs db).2 db.identifier = some db) ∧
    (∀ v, lookupA dbs db.identifier = some v →
      TuringFeeds.memdb_add dbs db = (DbOps.AlreadyExists, dbs)) ∧
    (∀ db2, db2.identifier = db.identifier → lookupA dbs db.identifier = none →
      TuringFeeds.memdb_add (TuringFeeds.memdb_add dbs db).2 db2 =
        (DbOps.AlreadyExists, (TuringFeeds.memdb_add dbs db).2) ∧
      lookupA (TuringFeeds.memdb_add (TuringFeeds.memdb_add dbs db).2 db2).2 db.identifier =
        some db) := by
  refine ⟨fun habs => ?_, fun v hocc => ?_, fun db2 hid habs => ?_⟩
  · simp [TuringFeeds.memdb_add, habs, lookupA_insertA_self]
  · simp [TuringFeeds.memdb_add, hocc]
  · have h1 : TuringFeeds.memdb_add dbs db = (DbOps.Inserted, insertA db.identifier db dbs) := by
      simp [TuringFeeds.memdb_add, habs]
    have h2 : lookupA (insertA db.identifier db dbs) db2.identifier = some db := by
      rw [hid]; exact lookupA_insertA_self db.identifier db dbs
    constructor
    · rw [h1]
      simp [TuringFeeds.memdb_add, h2]
    · rw [h1]
      simp [TuringFeeds.memdb_add, h2]
      exact lookupA_insertA_self db.identifier db dbs

/-- C4 witness: concrete run of both `memdb_add` cases. -/
theorem memdb_add_spec_witness :
    (TuringFeeds.memdb_add ([] : RepoMap) ⟨"alpha", 3, none⟩ =
      (DbOps.Inserted, insertA "alpha" ⟨"alpha", 3, none⟩ []) ∧
     lookupA (TuringFeeds.memdb_add ([] : RepoMap) ⟨"alpha", 3, none⟩).2 "alpha" =
      some ⟨"alpha", 3, none⟩) ∧
    (TuringFeeds.memdb_add
        (TuringFeeds.memdb_add ([] : RepoMap) ⟨"alpha", 3, none⟩).2 ⟨"alpha", 9, none⟩ =
      (DbOps.AlreadyExists, (TuringFeeds.memdb_add ([] : RepoMap) ⟨"alpha", 3, none⟩).2) ∧
     lookupA (TuringFeeds.memdb_add
        (TuringFeeds.memdb_add ([] : RepoMap) ⟨"alpha", 3, none⟩).2 ⟨"alpha", 9, none⟩).2
        "alpha" = some ⟨"alpha", 3, none⟩) :=
  ⟨(memdb_add_spec [] ⟨"alpha", 3, none⟩).1 rfl,
   (memdb_add_spec [] ⟨"alpha", 3, none⟩).2.2 ⟨"alpha", 9, none⟩ rfl rfl⟩

/-- C8: `memdb_update(db)` replaces the value stored at `db`'s key only
when that key is already present, returning `Modified`; when the key is
absent it returns `KeyNotFound` and the map is unchanged. -/
theorem memdb_update_spec (dbs : RepoMap) (db : TuringFeedsDB) :
    (∀ v, lookupA dbs db.identifier = some v →
      TuringFeeds.memdb_update dbs db = (DbOps.Modified, insertA db.identifier db dbs) ∧
      lookupA (TuringFeeds.memdb_update dbs db).2 db.identifier = some db) ∧
    (lookupA dbs db.identifier = none →
      TuringFeeds.memdb_update dbs db = (DbOps.KeyNotFound, dbs)) := by
  refine ⟨fun v hocc => ?_, fun habs => ?_⟩
  · simp [TuringFeeds.memdb_update, hocc, lookupA_insertA_self]
  · simp [TuringFeeds.memdb_update, habs]

/-- C8 witness: concrete run of both `memdb_update` cases. -/
theorem memdb_update_spec_witness :
    (TuringFeeds.memdb_update [("alpha", ⟨"alpha", 3, none⟩)] ⟨"alpha", 9, none⟩ =
      (DbOps.Modified, insertA "alpha" ⟨"alpha", 9, none⟩ [("alpha", ⟨"alpha", 3, none⟩)]) ∧
     lookupA (TuringFeeds.memdb_update [("alpha", ⟨"alpha", 3, none⟩)] ⟨"alpha", 9, none⟩).2
       "alpha" = some ⟨"alpha", 9, none⟩) ∧
    TuringFeeds.memdb_update ([] : RepoMap) ⟨"alpha", 9, none⟩ =
      (DbOps.KeyNotFound, ([] : RepoMap)) :=
  ⟨(memdb_update_spec [("alpha", ⟨"alpha", 3, none⟩)] ⟨"alpha", 9, none⟩).1
      ⟨"alpha", 3, none⟩ rfl,
   (memdb_update_spec [] ⟨"alpha", 9, none⟩).2 rfl⟩

/-- C10: `memdb_rm` has exactly the two outcomes `Deleted` and
`KeyNotFound` (never `Empty`); on the freshly created repository it
returns `KeyNotFound` with no value; a successful removal drops exactly
the entry at the given key and leaves every other entry unchanged. -/
theorem memdb_rm_spec (dbs : RepoMap) (key : String) :
    ((TuringFeeds.memdb_rm dbs key).1.1 = DbOps.Deleted ∨
     (TuringFeeds.memdb_rm dbs key).1.1 = DbOps.KeyNotFound) ∧
    (TuringFeeds.memdb_rm dbs key).1.1 ≠ DbOps.Empty ∧
    TuringFeeds.memdb_rm TuringFeeds.new key = ((DbOps.KeyNotFound, none), TuringFeeds.new) ∧
    (∀ k', k' ≠ key → lookupA (TuringFeeds.memdb_rm dbs key).2 k' = lookupA dbs k') ∧
    (keyCount key dbs ≤ 1 → lookupA (TuringFeeds.memdb_rm dbs key).2 key = none) := by
  refine ⟨?_, ?_, rfl, fun k' hk' => ?_, fun hcnt => ?_⟩
  · cases h : lookupA dbs key with
    | some v => left; simp [TuringFeeds.memdb_rm, h]
    | none => right; simp [TuringFeeds.memdb_rm, h]
  · cases h : lookupA dbs key with
    | some v => simp [TuringFeeds.memdb_rm, h]
    | none => simp [TuringFeeds.memdb_rm, h]
  · cases h : lookupA dbs key with
    | some v => simp [TuringFeeds.memdb_rm, h, lookupA_removeA_ne key k' dbs hk']
    | none => simp [TuringFeeds.memdb_rm, h]
  · cases h : lookupA dbs key with
    | some v => simp [TuringFeeds.memdb_rm, h, lookupA_removeA_self key dbs hcnt]
    | none => simp [TuringFeeds.memdb_rm, h, lookupA_of_keyCount_zero]
      -- the key is absent, so the unchanged map still has no entry for it

/-- C10 witness: concrete two-entry repository, removing one key. -/
theorem memdb_rm_spec_witness :
    ((TuringFeeds.memdb_rm
        [("alpha", ⟨"alpha", 1, none⟩), ("beta", ⟨"beta", 2, none⟩)] "alpha").1.1 =
          DbOps.Deleted ∨
     (TuringFeeds.memdb_rm
        [("alpha", ⟨"alpha", 1, none⟩), ("beta", ⟨"beta", 2, none⟩)] "alpha").1.1 =
          DbOps.KeyNotFound) ∧
    lookupA (TuringFeeds.memdb_rm
        [("alpha", ⟨"alpha", 1, none⟩), ("beta", ⟨"beta", 2, none⟩)] "alpha").2 "beta" =
      lookupA [("alpha", ⟨"alpha", 1, none⟩), ("beta", ⟨"beta", 2, none⟩)] "beta" ∧
    lookupA (TuringFeeds.memdb_rm
        [("alpha", ⟨"alpha", 1, none⟩), ("beta", ⟨"beta", 2, none⟩)] "alpha").2 "alpha" =
      none :=
  ⟨(memdb_rm_spec [("alpha", ⟨"alpha", 1, none⟩), ("beta", ⟨"beta", 2, none⟩)] "alpha").1,
   (memdb_rm_spec [("alpha", ⟨"alpha", 1, none⟩), ("beta", ⟨"beta", 2, none⟩)]
      "alpha").2.2.2.1 "beta" (by decide),
   (memdb_rm_spec [("alpha", ⟨"alpha", 1, none⟩), ("beta", ⟨"beta", 2, none⟩)]
      "alpha").2.2.2.2 (by decide)⟩

/-- C6: `Database::rm` yields exactly one of the three distinct outcomes
`Deleted` (key existed: entry removed and `datetime` stamped with now),
`KeyNotFound` (a document map exists but the key is absent: the value,
its `datetime` included, is unchanged) and `Empty` (no document map was
ever created); on a freshly constructed database it returns `Empty` and
leaves the entity unchanged. -/
theorem database_rm_spec (db : TuringFeedsDB) (now : Nat) (key : String) :
    (db.document_list = none → db.rm now key = (DbOps.Empty, db)) ∧
    (∀ m d, db.document_list = some m → lookupA m key = some d →
      db.rm now key =
        (DbOps.Deleted,
          { db with datetime := now, document_list := some (removeA key m) })) ∧
    (∀ m, db.document_list = some m → lookupA m key = none →
      db.rm now key = (DbOps.KeyNotFound, db)) ∧
    (∀ t, (TuringFeedsDB.new t).rm now key = (DbOps.Empty, TuringFeedsDB.new t)) ∧
    (DbOps.Deleted ≠ DbOps.KeyNotFound ∧ DbOps.Deleted ≠ DbOps.Empty ∧
      DbOps.KeyNotFound ≠ DbOps.Empty) := by
  refine ⟨fun hnone => ?_, fun m d hsome hocc => ?_, fun m hsome habs => ?_,
    fun t => rfl, by decide⟩
  · simp [TuringFeedsDB.rm, hnone]
  · simp [TuringFeedsDB.rm, hsome, hocc]
  · simp [TuringFeedsDB.rm, hsome, habs]
    exact TuringFeedsDB.eta_document_list db m hsome

/-- C6 witness: concrete runs of all three `rm` outcomes. -/
theorem database_rm_spec_witness :
    TuringFeedsDB.rm ⟨"users", 0, none⟩ 5 "d1" = (DbOps.Empty, ⟨"users", 0, none⟩) ∧
    TuringFeedsDB.rm ⟨"users", 0, some [("d1", ⟨"d1", 1, 1⟩)]⟩ 5 "d1" =
      (DbOps.Deleted, ⟨"users", 5, some (removeA "d1" [("d1", ⟨"d1", 1, 1⟩)])⟩) ∧
    TuringFeedsDB.rm ⟨"users", 0, some [("d1", ⟨"d1", 1, 1⟩)]⟩ 5 "d2" =
      (DbOps.KeyNotFound, ⟨"users", 0, some [("d1", ⟨"d1", 1, 1⟩)]⟩) :=
  ⟨(database_rm_spec ⟨"users", 0, none⟩ 5 "d1").1 rfl,
   (database_rm_spec ⟨"users", 0, some [("d1", ⟨"d1", 1, 1⟩)]⟩ 5 "d1").2.1
      [("d1", ⟨"d1", 1, 1⟩)] ⟨"d1", 1, 1⟩ rfl rfl,
   (database_rm_spec ⟨"users", 0, some [("d1", ⟨"d1", 1, 1⟩)]⟩ 5 "d2").2.2.1
      [("d1", ⟨"d1", 1, 1⟩)] rfl rfl⟩

/-- C5: `Database::add` inserts the document keyed by its identifier
into the document map (created on first use), unconditionally
overwriting any existing entry under that key, and always stamps the
database's `datetime` with now, key new or pre-existing alike; after
two `add` calls with the same document identifier the map holds exactly
one entry under that identifier, equal to the second document, and the
`datetime` strictly increases on each call (given the clock advanced
strictly between the calls). -/
theorem database_add_spec (db : TuringFeedsDB) (d1 d2 : TFDocument) (t1 t2 : Nat)
    (hid : d1.identifier = d2.identifier)
    (hcnt : keyCount d2.identifier (db.document_list.getD []) ≤ 1)
    (ht1 : db.datetime < t1) (ht2 : t1 < t2) :
    (∀ now d, (db.add now d).datetime = now ∧
      (db.add now d).document_list =
        some (insertA d.identifier d (db.document_list.getD []))) ∧
    db.datetime < (db.add t1 d1).datetime ∧
    (db.add t1 d1).datetime < ((db.add t1 d1).add t2 d2).datetime ∧
    ((db.add t1 d1).add t2 d2).document_list =
      some (insertA d2.identifier d2 (insertA d2.identifier d1 (db.document_list.getD []))) ∧
    keyCount d2.identifier
      (insertA d2.identifier d2 (insertA d2.identifier d1 (db.document_list.getD []))) = 1 ∧
    lookupA (insertA d2.identifier d2 (insertA d2.identifier d1 (db.document_list.getD [])))
      d2.identifier = some d2 := by
  have hkc1 : keyCount d2.identifier
      (insertA d2.identifier d1 (db.document_list.getD [])) = 1 :=
    keyCount_insertA_self d2.identifier d1 (db.document_list.getD []) hcnt
  refine ⟨fun now d => ?_, ?_, ?_, ?_, ?_, ?_⟩
  · rw [TuringFeedsDB.add_normal db now d]
    exact ⟨rfl, rfl⟩
  · rw [TuringFeedsDB.add_normal db t1 d1]
    exact ht1
  · rw [TuringFeedsDB.add_normal (db.add t1 d1) t2 d2, TuringFeedsDB.add_normal db t1 d1]
    exact ht2
  · rw [TuringFeedsDB.add_normal (db.add t1 d1) t2 d2, TuringFeedsDB.add_normal db t1 d1]
    simp [hid]
  · exact keyCount_insertA_self d2.identifier d2 _ (le_of_eq hkc1)
  · exact lookupA_insertA_self d2.identifier d2 _

/-- C5 witness: two adds of same-identifier documents on a fresh
database. -/
theorem database_add_spec_witness :
    (∀ now d, (TuringFeedsDB.add ⟨"users", 0, none⟩ now d).datetime = now ∧
      (TuringFeedsDB.add ⟨"users", 0, none⟩ now d).document_list =
        some (insertA d.identifier d
          ((⟨"users", 0, none⟩ : TuringFeedsDB).document_list.getD []))) ∧
    (⟨"users", 0, none⟩ : TuringFeedsDB).datetime <
      (TuringFeedsDB.add ⟨"users", 0, none⟩ 1 ⟨"doc", 10, 10⟩).datetime ∧
    (TuringFeedsDB.add ⟨"users", 0, none⟩ 1 ⟨"doc", 10, 10⟩).datetime <
      ((TuringFeedsDB.add ⟨"users", 0, none⟩ 1 ⟨"doc", 10, 10⟩).add 2
        ⟨"doc", 20, 20⟩).datetime ∧
    ((TuringFeedsDB.add ⟨"users", 0, none⟩ 1 ⟨"doc", 10, 10⟩).add 2
        ⟨"doc", 20, 20⟩).document_list =
      some (insertA "doc" ⟨"doc", 20, 20⟩ (insertA "doc" ⟨"doc", 10, 10⟩
        ((⟨"users", 0, none⟩ : TuringFeedsDB).document_list.getD []))) ∧
    keyCount "doc" (insertA "doc" ⟨"doc", 20, 20⟩ (insertA "doc" ⟨"doc", 10, 10⟩
        ((⟨"users", 0, none⟩ : TuringFeedsDB).document_list.getD []))) = 1 ∧
    lookupA (insertA "doc" ⟨"doc", 20, 20⟩ (insertA "doc" ⟨"doc", 10, 10⟩
        ((⟨"users", 0, none⟩ : TuringFeedsDB).document_list.getD []))) "doc" =
      some ⟨"doc", 20, 20⟩ :=
  database_add_spec ⟨"users", 0, none⟩ ⟨"doc", 10, 10⟩ ⟨"doc", 20, 20⟩ 1 2
    rfl (by decide) (by decide) (by decide)

/-! ### Document builder sequences (C9) -/

/-- One builder call on a `TFDocument` after construction: `id(value)`
or `modified_time()` (the latter carrying the `TAI64N::now()` sample it
observes). -/
inductive DocOp where
  | idOp (value : String)
  | modifiedTimeOp (now : Nat)
deriving DecidableEq, Repr

/-- Run one builder call. -/
def applyDocOp (d : TFDocument) : DocOp → TFDocument
  | DocOp.idOp value => d.id value
  | DocOp.modifiedTimeOp now => d.modified_timeB now

/-- Run a chain of builder calls, left to right. -/
def applyDocOps (d : TFDocument) (ops : List DocOp) : TFDocument :=
  ops.foldl applyDocOp d

/-- Generalized invariant for the builder chain: if a document's
create-time is `t0` and its modified-time is at least `t0`, both facts
survive any chain whose clock samples are all at least `t0`. -/
theorem applyDocOps_invariant (ops : List DocOp) (d : TFDocument) (t0 : Nat)
    (hc : d.create_time = t0) (hm : t0 ≤ d.modified_time)
    (hclock : ∀ t, DocOp.modifiedTimeOp t ∈ ops → t0 ≤ t) :
    (applyDocOps d ops).create_time = t0 ∧ t0 ≤ (applyDocOps d ops).modified_time := by
  induction ops generalizing d with
  | nil => exact ⟨hc, hm⟩
  | cons op rest ih =>
    cases op with
    | idOp value =>
      exact ih (d.id value) hc hm (fun t ht => hclock t (List.mem_cons_of_mem _ ht))
    | modifiedTimeOp now =>
      exact ih (d.modified_timeB now) hc (hclock now (List.mem_cons_self _ _))
        (fun t ht => hclock t (List.mem_cons_of_mem _ ht))

/-- C9: starting from `TFDocument::new` (which sets create-time and
modified-time to the same instant), no chain of `id` and
`modified_time` builder calls ever changes the create-time, and the
modified-time stays at least the create-time, provided every clock
sample the chain observes is no earlier than the construction instant. -/
theorem tfdocument_time_invariants (rid : String) (t0 : Nat) (ops : List DocOp)
    (hclock : ∀ t, DocOp.modifiedTimeOp t ∈ ops → t0 ≤ t) :
    (TFDocument.new rid t0).create_time = (TFDocument.new rid t0).modified_time ∧
    (applyDocOps (TFDocument.new rid t0) ops).create_time = t0 ∧
    (applyDocOps (TFDocument.new rid t0) ops).create_time ≤
      (applyDocOps (TFDocument.new rid t0) ops).modified_time := by
  have h := applyDocOps_invariant ops (TFDocument.new rid t0) t0 rfl (Nat.le_refl t0) hclock
  refine ⟨rfl, h.1, ?_⟩
  rw [h.1]
  exact h.2

/-- C9 witness: a concrete builder chain over a document created at
instant 3. -/
theorem tfdocument_time_invariants_witness :
    (TFDocument.new "r0" 3).create_time = (TFDocument.new "r0" 3).modified_time ∧
    (applyDocOps (TFDocument.new "r0" 3)
      [DocOp.idOp "custom", DocOp.modifiedTimeOp 5, DocOp.modifiedTimeOp 8]).create_time = 3 ∧
    (applyDocOps (TFDocument.new "r0" 3)
      [DocOp.idOp "custom", DocOp.modifiedTimeOp 5, DocOp.modifiedTimeOp 8]).create_time ≤
    (applyDocOps (TFDocument.new "r0" 3)
      [DocOp.idOp "custom", DocOp.modifiedTimeOp 5, DocOp.modifiedTimeOp 8]).modified_time :=
  tfdocument_time_invariants "r0" 3
    [DocOp.idOp "custom", DocOp.modifiedTimeOp 5, DocOp.modifiedTimeOp 8]
    (by intro t ht; simp at ht; omega)

/-- C1: `create()` bootstraps the root directory non-recursively and its
five outcomes — success, already-exists, permission-denied, interrupted
and a generic I/O failure — are pairwise distinct observable result
values; a second invocation after a successful one yields the
distinguishable already-exists outcome, not a silent success and not the
value of the generic failure. -/
theorem create_outcomes_spec (fs : FS) (h : fs.dirExists = false) :
    TuringFeeds.create fs none =
      (Except.ok FileOps.CreateTrue, { fs with dirExists := true }) ∧
    (∀ fault, TuringFeeds.create { fs with dirExists := true } fault =
      (Except.error (TuringFeedsError.ioError ErrorKind.alreadyExists),
        { fs with dirExists := true })) ∧
    (∀ k, TuringFeeds.create fs (some k) =
      (Except.error (TuringFeedsError.ioError k), fs)) ∧
    ([Except.ok FileOps.CreateTrue,
      Except.error (TuringFeedsError.ioError ErrorKind.alreadyExists),
      Except.error (TuringFeedsError.ioError ErrorKind.permissionDenied),
      Except.error (TuringFeedsError.ioError ErrorKind.interrupted),
      Except.error (TuringFeedsError.ioError ErrorKind.other)] :
      List (Except TuringFeedsError FileOps)).Pairwise (fun a b => a ≠ b) := by
  refine ⟨?_, fun fault => ?_, fun k => ?_, ?_⟩
  · simp [TuringFeeds.create, h]
  · simp [TuringFeeds.create]
  · simp [TuringFeeds.create, h]
  · simp

/-- C1 witness: concrete fresh file system. -/
theorem create_outcomes_spec_witness :
    TuringFeeds.create ⟨false, none⟩ none =
      (Except.ok FileOps.CreateTrue, ⟨true, none⟩) ∧
    (∀ fault, TuringFeeds.create ⟨true, none⟩ fault =
      (Except.error (TuringFeedsError.ioError ErrorKind.alreadyExists), ⟨true, none⟩)) ∧
    (∀ k, TuringFeeds.create ⟨false, none⟩ (some k) =
      (Except.error (TuringFeedsError.ioError k), ⟨false, none⟩)) ∧
    ([Except.ok FileOps.CreateTrue,
      Except.error (TuringFeedsError.ioError ErrorKind.alreadyExists),
      Except.error (TuringFeedsError.ioError ErrorKind.permissionDenied),
      Except.error (TuringFeedsError.ioError ErrorKind.interrupted),
      Except.error (TuringFeedsError.ioError ErrorKind.other)] :
      List (Except TuringFeedsError FileOps)).Pairwise (fun a b => a ≠ b) :=
  create_outcomes_spec ⟨false, none⟩ rfl

/-- C2: starting from an existing root directory with no snapshot file
yet, `commit()` followed by `init()` reproduces the committed map, for
the empty map, a one-database map whose database holds no documents,
and a one-database map whose database holds two documents. -/
theorem commit_init_roundtrip (fs : FS) (name : String) (db0 dbD : TuringFeedsDB)
    (i1 i2 : String) (d1 d2 : TFDocument)
    (hdir : fs.dirExists = true) (hfile : fs.repoFile = none)
    (_h0 : db0.document_list = none)
    (_hD : dbD.document_list = some [(i1, d1), (i2, d2)]) (_hne : i1 ≠ i2) :
    commitThenInit [] fs = Except.ok [] ∧
    commitThenInit [(name, db0)] fs = Except.ok [(name, db0)] ∧
    commitThenInit [(name, dbD)] fs = Except.ok [(name, dbD)] :=
  ⟨commitThenInit_ok [] fs hdir hfile,
   commitThenInit_ok [(name, db0)] fs hdir hfile,
   commitThenInit_ok [(name, dbD)] fs hdir hfile⟩

/-- C2 witness: concrete round-trips of the three map shapes. -/
theorem commit_init_roundtrip_witness :
    commitThenInit [] ⟨true, none⟩ = Except.ok [] ∧
    commitThenInit [("alpha", ⟨"alpha", 0, none⟩)] ⟨true, none⟩ =
      Except.ok [("alpha", ⟨"alpha", 0, none⟩)] ∧
    commitThenInit
        [("alpha", ⟨"alpha", 0, some [("a", ⟨"a", 1, 1⟩), ("b", ⟨"b", 2, 2⟩)]⟩)]
        ⟨true, none⟩ =
      Except.ok [("alpha", ⟨"alpha", 0, some [("a", ⟨"a", 1, 1⟩), ("b", ⟨"b", 2, 2⟩)]⟩)] :=
  commit_init_roundtrip ⟨true, none⟩ "alpha" ⟨"alpha", 0, none⟩
    ⟨"alpha", 0, some [("a", ⟨"a", 1, 1⟩), ("b", ⟨"b", 2, 2⟩)]⟩
    "a" "b" ⟨"a", 1, 1⟩ ⟨"b", 2, 2⟩ rfl rfl rfl rfl (by decide)

/-- C3: `init()` fails with an I/O error when the snapshot file does not
exist (in particular before any `commit()`), fails with a
deserialization error when the content is malformed, leaves the
in-memory map unchanged on either failure, and on success replaces the
map wholesale by the deserialized contents. -/
theorem init_spec (dbs : RepoMap) (fs : FS) :
    (fs.repoFile = none →
      TuringFeeds.initRun dbs fs =
        (Except.error (TuringFeedsError.ioError ErrorKind.notFound), dbs)) ∧
    (∀ c, fs.repoFile = some c → ronDe c = none →
      TuringFeeds.initRun dbs fs = (Except.error TuringFeedsError.ronDeError, dbs)) ∧
    (∀ c m, fs.repoFile = some c → ronDe c = some m →
      TuringFeeds.initRun dbs fs = (Except.ok (), m)) := by
  refine ⟨fun h => ?_, fun c hc hm => ?_, fun c m hc hm => ?_⟩
  · simp [TuringFeeds.initRun, TuringFeeds.init, h]
  · simp [TuringFeeds.initRun, TuringFeeds.init, hc, hm]
  · simp [TuringFeeds.initRun, TuringFeeds.init, hc, hm]

/-- C3 witness: missing file, malformed file, and a valid snapshot, each
against a non-empty in-memory map. -/
theorem init_spec_witness :
    TuringFeeds.initRun [("x", ⟨"x", 1, none⟩)] ⟨true, none⟩ =
      (Except.error (TuringFeedsError.ioError ErrorKind.notFound),
        [("x", ⟨"x", 1, none⟩)]) ∧
    TuringFeeds.initRun [("x", ⟨"x", 1, none⟩)] ⟨true, some [Atom.str "junk"]⟩ =
      (Except.error TuringFeedsError.ronDeError, [("x", ⟨"x", 1, none⟩)]) ∧
    TuringFeeds.initRun [("x", ⟨"x", 1, none⟩)] ⟨true, some (ronSer [])⟩ =
      (Except.ok (), ([] : RepoMap)) :=
  ⟨(init_spec [("x", ⟨"x", 1, none⟩)] ⟨true, none⟩).1 rfl,
   (init_spec [("x", ⟨"x", 1, none⟩)] ⟨true, some [Atom.str "junk"]⟩).2.1
      [Atom.str "junk"] rfl rfl,
   (init_spec [("x", ⟨"x", 1, none⟩)] ⟨true, some (ronSer [])⟩).2.2
      (ronSer []) [] rfl rfl⟩

/-! ### The missing-truncate defect in `commit` (C7) -/

/-- A concrete database used to exhibit the stale-tail behaviour. -/
def dbAlpha : TuringFeedsDB := ⟨"alpha", 7, none⟩

/-- File system after committing the one-database map onto a fresh
snapshot file. -/
def fsAfterFirstCommit : FS := ⟨true, some (ronSer [("alpha", dbAlpha)])⟩

/-- File system after then committing the empty map: the write covers
only the front of the previous, longer content, and the rest of the old
snapshot remains as a stale tail. -/
def fsPoisoned : FS :=
  ⟨true, some (ronSer [] ++ (ronSer [("alpha", dbAlpha)]).drop (ronSer []).length)⟩

/-- C7 divergence: `commit` opens the snapshot file without truncating
it, so committing the empty map over the previous one-database snapshot
leaves the file different from the serialization of the committed map —
the old snapshot's tail trails behind — and the next `init` even fails
to deserialize the file. -/
theorem commit_no_truncate_stale_tail :
    TuringFeeds.commit [("alpha", dbAlpha)] ⟨true, none⟩ =
      Except.ok (FileOps.WriteTrue, fsAfterFirstCommit) ∧
    TuringFeeds.commit [] fsAfterFirstCommit = Except.ok (FileOps.WriteTrue, fsPoisoned) ∧
    fsPoisoned.repoFile ≠ some (ronSer ([] : RepoMap)) ∧
    TuringFeeds.init fsPoisoned = Except.error TuringFeedsError.ronDeError := by
  refine ⟨rfl, rfl, by decide, rfl⟩
